import Mathlib

/-!
Verification development for the go.vm compiler (package `compiler`,
file `compiler.go`).  The compiler consumes a stream of typed tokens
produced by an external lexer and emits a flat bytecode buffer,
recording label definitions in a symbol table (`labels`) and pending
2-byte placeholder patches in a fixup table (`fixups`); after the
single scanning pass a fixup pass overwrites every placeholder with
the resolved label offset.

The embedding below models the token stream as a `List Token`
(consumed front-first, with the lexer's behaviour of yielding EOF
forever once exhausted), the compiler state as the record `CState`,
and every statement encoder of `compiler.go` as a function
`List Token → CState → Except CErr (List Token × CState)`.  A
`CErr` result models the Go code calling `os.Exit(1)` (or `panic`)
before any output is written; `Warning` values model the diagnostic
prints after which compilation continues.
-/

set_option maxRecDepth 4096

namespace GoVM

/-- Modelled from the spec (section 3 and 4.1): the token kinds of the
external `token` package, which is not part of the sources under
verification.  One kind per mnemonic keyword, plus end-of-stream,
label, identifier (registers and label names), integer literal,
string literal and comma, exactly the closed set dispatched on by
`compiler.go`. -/
inductive TokenType where
  | EOF | LABEL | IDENT | INT | STRING | COMMA
  | EXIT | INC | DEC | RANDOM | RET | CALL
  | IS_INTEGER | IS_STRING | STRING2INT | INT2STRING
  | SYSTEM | CMP | CONCAT | DB | DATA
  | GOTO | TRAP | JMP | JMPZ | JMPNZ
  | MEMCPY | NOP | PEEK | POKE | PUSH | POP | STORE
  | PRINT_INT | PRINT_STR
  | ADD | XOR | SUB | MUL | DIV | AND | OR
deriving DecidableEq, Repr

/-- Modelled from the spec (section 3): a token is a kind plus its
literal text, as produced by the external lexer. -/
structure Token where
  type : TokenType
  literal : String
deriving DecidableEq, Repr

namespace opcode

/-- Modelled from the spec (section 6): the external `opcode` package
maps each mnemonic to one fixed byte-sized constant.  The concrete
numeric values are those of the upstream opcode table; no claim below
depends on the particular numbers, only on each mnemonic having a
fixed constant. -/
def EXIT : Nat := 0x00

def INT_STORE : Nat := 0x01

def INT_PRINT : Nat := 0x02

def INT_TOSTRING : Nat := 0x03

def INT_RANDOM : Nat := 0x04

def JUMP_TO : Nat := 0x10

def JUMP_Z : Nat := 0x11

def JUMP_NZ : Nat := 0x12

def XOR_OP : Nat := 0x20

def ADD_OP : Nat := 0x21

def SUB_OP : Nat := 0x22

def MUL_OP : Nat := 0x23

def DIV_OP : Nat := 0x24

def INC_OP : Nat := 0x25

def DEC_OP : Nat := 0x26

def AND_OP : Nat := 0x27

def OR_OP : Nat := 0x28

def STRING_STORE : Nat := 0x30

def STRING_PRINT : Nat := 0x31

def STRING_CONCAT : Nat := 0x32

def STRING_SYSTEM : Nat := 0x33

def STRING_TOINT : Nat := 0x34

def CMP_REG : Nat := 0x40

def CMP_IMMEDIATE : Nat := 0x41

def CMP_STRING : Nat := 0x42

def IS_STRING : Nat := 0x43

def IS_INTEGER : Nat := 0x44

def NOP_OP : Nat := 0x50

def REG_STORE : Nat := 0x51

def PEEK : Nat := 0x60

def POKE : Nat := 0x61

def MEMCPY : Nat := 0x62

def STACK_PUSH : Nat := 0x70

def STACK_POP : Nat := 0x71

def STACK_RET : Nat := 0x72

def STACK_CALL : Nat := 0x73

def TRAP_OP : Nat := 0x80

end opcode

/-- Diagnostics after which the Go code calls `os.Exit(1)` (or, for
`atoiPanic`, `panic`): compilation aborts and no output is written. -/
inductive CErr where
  /-- `getRegister`: register index outside 0..15 (compiler.go:83). -/
  | regOutOfBounds (input : String)
  /-- `getRegister`: `strconv.Atoi` failed on the register text
  (compiler.go:76). -/
  | atoiPanic (lit : String)
  /-- `peekError`: unexpected token kind; the Go message prints the
  expected type and the type of the current token (compiler.go:876). -/
  | expectedGot (expected actual : TokenType)
  /-- `storeOp`/`cmpOp` default branch: operand of un-encodable kind
  (compiler.go:682, compiler.go:758). -/
  | invalidStore (t : Token)
deriving DecidableEq, Repr

/-- Diagnostics after which compilation continues (plain prints in the
Go code). -/
inductive Warning where
  /-- `Compile` default branch: "Unhandled token" (compiler.go:225). -/
  | unhandledToken (t : Token)
  /-- `trapOp` default branch: "Fail!" (compiler.go:507). -/
  | trapFail
  /-- Fixup pass: "Possible use of undefined label" (compiler.go:235). -/
  | possibleUndefinedLabel (name : String)
deriving DecidableEq, Repr

/-- The compiler state of `compiler.go`: the generated bytecode (each
byte a `Nat` below 256), the label map (association list, most recent
definition first, so lookup is last-definition-wins as for the Go
map assignment), the fixup map (offset, label name) in registration
order, and the printed diagnostics. -/
structure CState where
  bytecode : List Nat
  labels : List (String × Nat)
  fixups : List (Nat × String)
  warns : List Warning
deriving DecidableEq, Repr

deriving instance DecidableEq for Except

def initState : CState := ⟨[], [], [], []⟩

/-- The distinguished end-of-stream token: the lexer yields EOF forever
once the input is exhausted. -/
def eofTok : Token := ⟨.EOF, ""⟩

/-- `p.curToken` for a stream modelled as the list of remaining tokens. -/
def curTok (ts : List Token) : Token := ts.headD eofTok

/-- `p.peekToken`: one token of lookahead. -/
def peekTok (ts : List Token) : Token := (ts.drop 1).headD eofTok

/-- `p.nextToken()`: shift the stream by one. -/
def adv (ts : List Token) : List Token := ts.drop 1

/-- Append bytes to the bytecode buffer (`p.bytecode = append(...)`). -/
def emit (st : CState) (bs : List Nat) : CState :=
  { st with bytecode := st.bytecode ++ bs }

/-- Record a fixup at the current buffer length and append the two
placeholder bytes (`p.fixups[len(p.bytecode)] = name` followed by two
zero appends, compiler.go:531..538). -/
def addFixup (st : CState) (name : String) : CState :=
  { st with
      fixups := st.fixups ++ [(st.bytecode.length, name)],
      bytecode := st.bytecode ++ [0, 0] }

/-- Record a printed diagnostic after which compilation continues. -/
def warn (st : CState) (w : Warning) : CState :=
  { st with warns := st.warns ++ [w] }

/-- One decimal/hex digit of Go's strconv scanning. -/
def digitVal (c : Char) : Option Nat :=
  if '0' ≤ c ∧ c ≤ '9' then some (c.toNat - 48)
  else if 'a' ≤ c ∧ c ≤ 'z' then some (c.toNat - 97 + 10)
  else if 'A' ≤ c ∧ c ≤ 'Z' then some (c.toNat - 65 + 10)
  else none

/-- Digit-string scanning of Go's strconv: nonempty, every character a
digit below the base. -/
def parseDigits (base : Nat) (cs : List Char) : Option Nat :=
  match cs with
  | [] => none
  | _ =>
    cs.foldl (fun acc c =>
      match acc, digitVal c with
      | some a, some d => if d < base then some (a * base + d) else none
      | _, _ => none) (some 0)

/-- Leading sign of Go's strconv scanning. -/
def splitSign (cs : List Char) : Bool × List Char :=
  match cs with
  | '-' :: rest => (true, rest)
  | '+' :: rest => (false, rest)
  | _ => (false, cs)

/-- Base prefix detection of Go's strconv with base argument 0:
0x/0X hex, 0b/0B binary, 0o/0O octal, a remaining leading 0 octal,
otherwise decimal. -/
def splitBase (cs : List Char) : Nat × List Char :=
  match cs with
  | '0' :: 'x' :: rest => (16, rest)
  | '0' :: 'X' :: rest => (16, rest)
  | '0' :: 'b' :: rest => (2, rest)
  | '0' :: 'B' :: rest => (2, rest)
  | '0' :: 'o' :: rest => (8, rest)
  | '0' :: 'O' :: rest => (8, rest)
  | '0' :: c :: rest => (8, '0' :: c :: rest)
  | _ => (10, cs)

/-- Model of the Go standard library call
`strconv.ParseInt(s, 0, 64)` as used with its error ignored
(compiler.go:469 etc.): optional sign, base prefix, digits; a syntax
error yields 0 (the zero value of the ignored result), and overflow
past int64 yields the clamped extreme value that Go returns alongside
the (ignored) range error.  Digit-separator underscores are not
modelled; no source program in the claims uses them. -/
def goParseInt (s : String) : Int :=
  let sp := splitSign s.data
  let bp := splitBase sp.2
  match parseDigits bp.1 bp.2 with
  | none => 0
  | some mag =>
    if sp.1 then
      if mag ≤ 9223372036854775808 then -(mag : Int) else -9223372036854775808
    else
      if mag ≤ 9223372036854775807 then (mag : Int) else 9223372036854775807

/-- Model of the Go standard library call `strconv.Atoi(s)` as used in
`getRegister` (compiler.go:74): base-10 with optional sign; `none`
models a non-nil error (syntax or range), on which `getRegister`
panics. -/
def goAtoi (s : String) : Option Int :=
  let sp := splitSign s.data
  match parseDigits 10 sp.2 with
  | none => none
  | some mag =>
    if sp.1 then
      if mag ≤ 9223372036854775808 then some (-(mag : Int)) else none
    else
      if mag ≤ 9223372036854775807 then some (mag : Int) else none

/-- Go's byte(x) conversion on an integer: the low 8 bits. -/
def goByte (x : Int) : Nat := (x % 256).toNat

/-- The 2-byte little-endian field computation of `compiler.go`,
identical at every emission site (e.g. compiler.go:524..529,
656..660): with Go's truncated `%` and `/` on integers,
low = value mod 256, high = (value - low) / 256, each converted with
byte(...). -/
def le16 (v : Int) : List Nat :=
  let lo := Int.tmod v 256
  let hi := Int.tdiv (v - lo) 256
  [goByte lo, goByte hi]

/-- `isRegister` (compiler.go:62): `strings.HasPrefix(input, "#")`. -/
def isRegister (input : String) : Bool :=
  match input.data with
  | '#' :: _ => true
  | _ => false

/-- `strings.TrimPrefix(input, "#")` of `getRegister`
(compiler.go:72). -/
def trimHash (s : String) : String :=
  match s.data with
  | '#' :: rest => String.mk rest
  | _ => s

/-- `getRegister` (compiler.go:70..86): strip the `#` sigil, parse the
rest with `strconv.Atoi` (panicking on error), accept 0..15 and
otherwise print and `os.Exit(1)`. -/
def getRegister (input : String) : Except CErr Nat :=
  let num := trimHash input
  match goAtoi num with
  | none => .error (.atoiPanic num)
  | some i =>
    if 0 ≤ i ∧ i ≤ 15 then .ok i.toNat
    else .error (.regOutOfBounds input)

/-- `strings.TrimPrefix(lit, ":")` used on label tokens
(compiler.go:112). -/
def trimColon (s : String) : String :=
  match s.data with
  | ':' :: rest => String.mk rest
  | _ => s

/-- The bytes of a Go string literal: Go indexing `lit[i]` walks the
UTF-8 bytes. -/
def strBytes (s : String) : List Nat :=
  s.toUTF8.toList.map (fun b => b.toNat)

/-- `expectPeek` (compiler.go:866..873): advance when the next token
has the expected kind, otherwise `peekError` prints the expected kind
together with the kind of the current token and exits. -/
def expectPeek (t : TokenType) (ts : List Token) : Except CErr (List Token) :=
  if (peekTok ts).type = t then .ok (adv ts)
  else .error (.expectedGot t (curTok ts).type)

/-- The shared shape of `incOp`, `decOp`, `randOp`, `isStrOp`,
`str2IntOp`, `int2StrOp`, `systemOp`, `isIntOp`, `pushOp`, `popOp`
(and, with the same observable result, `printInt`/`printString`):
expect an identifier, resolve the register, append opcode and
register byte. -/
def oneRegOp (op : Nat) (ts : List Token) (st : CState) :
    Except CErr (List Token × CState) := do
  let ts ← expectPeek .IDENT ts
  let reg ← getRegister (curTok ts).literal
  .ok (ts, emit st [op, reg])

/-- `peekOp`/`pokeOp` (compiler.go:252..302): identifier, comma, then
a direct current-token check that silently returns when the second
operand is not an identifier. -/
def twoRegMemOp (op : Nat) (ts : List Token) (st : CState) :
    Except CErr (List Token × CState) := do
  let ts ← expectPeek .IDENT ts
  let a ← getRegister (curTok ts).literal
  let ts ← expectPeek .COMMA ts
  let ts := adv ts
  if (curTok ts).type = .IDENT then do
    let b ← getRegister (curTok ts).literal
    .ok (ts, emit st [op, a, b])
  else
    .ok (ts, st)

/-- `mathOperation` (compiler.go:571..610): identifier, comma,
identifier, comma, identifier; the two post-comma positions are
checked directly against IDENT and silently return on mismatch. -/
def mathOperation (operation : Nat) (ts : List Token) (st : CState) :
    Except CErr (List Token × CState) := do
  let ts ← expectPeek .IDENT ts
  let dst ← getRegister (curTok ts).literal
  let ts ← expectPeek .COMMA ts
  let ts := adv ts
  if (curTok ts).type = .IDENT then do
    let src1 ← getRegister (curTok ts).literal
    let ts ← expectPeek .COMMA ts
    let ts := adv ts
    if (curTok ts).type = .IDENT then do
      let src2 ← getRegister (curTok ts).literal
      .ok (ts, emit st [operation, dst, src1, src2])
    else
      .ok (ts, st)
  else
    .ok (ts, st)

/-- `memcpyOp`/`concatOp` (compiler.go:544..568, 764..788): advance and
resolve three comma-separated registers with no token-kind checks on
the operand positions themselves. -/
def threeRegOp (op : Nat) (ts : List Token) (st : CState) :
    Except CErr (List Token × CState) := do
  let ts := adv ts
  let one ← getRegister (curTok ts).literal
  let ts ← expectPeek .COMMA ts
  let ts := adv ts
  let two ← getRegister (curTok ts).literal
  let ts ← expectPeek .COMMA ts
  let ts := adv ts
  let three ← getRegister (curTok ts).literal
  .ok (ts, emit st [op, one, two, three])

/-- `callOp` (compiler.go:458..487): append the call opcode, advance,
then emit a 2-byte absolute target for an INT operand or register a
fixup for an IDENT operand; any other operand kind falls through the
switch silently, leaving the call with no operand bytes. -/
def callOp (ts : List Token) (st : CState) :
    Except CErr (List Token × CState) :=
  let st := emit st [opcode.STACK_CALL]
  let ts := adv ts
  let t := curTok ts
  match t.type with
  | .INT => .ok (ts, emit st (le16 (goParseInt t.literal)))
  | .IDENT => .ok (ts, addFixup st t.literal)
  | _ => .ok (ts, st)

/-- `jumpOp` (compiler.go:512..541), shared by `jmp`, `jmpz`, `jmpnz`
and `goto`: append the jump opcode, advance, then emit a 2-byte target
for INT or register a fixup for IDENT; any other operand kind falls
through the switch silently, leaving the jump with no operand bytes. -/
def jumpOp (operator : Nat) (ts : List Token) (st : CState) :
    Except CErr (List Token × CState) :=
  let st := emit st [operator]
  let ts := adv ts
  let t := curTok ts
  match t.type with
  | .INT => .ok (ts, emit st (le16 (goParseInt t.literal)))
  | .IDENT => .ok (ts, addFixup st t.literal)
  | _ => .ok (ts, st)

/-- `trapOp` (compiler.go:490..509): advance, then emit opcode and
2-byte operand only for an INT operand; for every other operand kind
print "Fail!" and continue with no bytes emitted. -/
def trapOp (ts : List Token) (st : CState) :
    Except CErr (List Token × CState) :=
  let ts := adv ts
  let t := curTok ts
  match t.type with
  | .INT => .ok (ts, emit st ([opcode.TRAP_OP] ++ le16 (goParseInt t.literal)))
  | _ => .ok (ts, warn st .trapFail)

/-- `storeOp` (compiler.go:614..685): register, comma, then dispatch on
the operand kind; the default branch prints the offending token and
exits. -/
def storeOp (ts : List Token) (st : CState) :
    Except CErr (List Token × CState) := do
  let ts ← expectPeek .IDENT ts
  let reg ← getRegister (curTok ts).literal
  let ts ← expectPeek .COMMA ts
  let ts := adv ts
  let t := curTok ts
  match t.type with
  | .STRING =>
    let bs := strBytes t.literal
    .ok (ts, emit st ([opcode.STRING_STORE, reg] ++ le16 (bs.length : Int) ++ bs))
  | .INT =>
    .ok (ts, emit st ([opcode.INT_STORE, reg] ++ le16 (goParseInt t.literal)))
  | .IDENT =>
    if isRegister t.literal then do
      let src ← getRegister t.literal
      .ok (ts, emit st [opcode.REG_STORE, reg, src])
    else
      .ok (ts, addFixup (emit st [opcode.INT_STORE, reg]) t.literal)
  | _ => .error (.invalidStore t)

/-- `cmpOp` (compiler.go:689..761): mirrors `storeOp` with the
comparison opcodes; a label operand compiles to CMP_IMMEDIATE with a
fixup, and the default branch prints the offending token and exits. -/
def cmpOp (ts : List Token) (st : CState) :
    Except CErr (List Token × CState) := do
  let ts ← expectPeek .IDENT ts
  let reg ← getRegister (curTok ts).literal
  let ts ← expectPeek .COMMA ts
  let ts := adv ts
  let t := curTok ts
  match t.type with
  | .STRING =>
    let bs := strBytes t.literal
    .ok (ts, emit st ([opcode.CMP_STRING, reg] ++ le16 (bs.length : Int) ++ bs))
  | .INT =>
    .ok (ts, emit st ([opcode.CMP_IMMEDIATE, reg] ++ le16 (goParseInt t.literal)))
  | .IDENT =>
    if isRegister t.literal then do
      let src ← getRegister t.literal
      .ok (ts, emit st [opcode.CMP_REG, reg, src])
    else
      .ok (ts, addFixup (emit st [opcode.CMP_IMMEDIATE, reg]) t.literal)
  | _ => .error (.invalidStore t)

/-- The trailing loop of `dataOp` (compiler.go:816..826): while the
peek token is a comma, skip it and require an INT (via `expectPeek`,
whose failure is fatal), appending the low byte of each parsed
value. -/
def dataLoop (ts : List Token) (st : CState) :
    Except CErr (List Token × CState) :=
  if h : (peekTok ts).type = .COMMA then
    let ts1 := adv ts
    match h2 : expectPeek .INT ts1 with
    | .error e => .error e
    | .ok ts2 =>
      dataLoop ts2 (emit st [goByte (goParseInt (curTok ts2).literal)])
  else
    .ok (ts, st)
termination_by ts.length
decreasing_by
  have hl : 2 ≤ ts.length := by
    rcases ts with _ | ⟨a, _ | ⟨b, rest⟩⟩
    · simp [peekTok, eofTok] at h
    · simp [peekTok, eofTok] at h
    · simp
  have he : ts2 = adv (adv ts) := by
    unfold expectPeek at h2
    split at h2
    · exact (Except.ok.inj h2).symm
    · exact absurd h2 (by simp)
  simp [he, adv]
  omega

/-- `dataOp` (compiler.go:791..827): a string operand appends its raw
bytes; otherwise the current token's literal is parsed as an int whose
low byte is appended, followed by the comma-separated continuation
loop. -/
def dataOp (ts : List Token) (st : CState) :
    Except CErr (List Token × CState) :=
  let ts := adv ts
  let t := curTok ts
  if t.type = .STRING then
    .ok (ts, emit st (strBytes t.literal))
  else
    dataLoop ts (emit st [goByte (goParseInt t.literal)])

/-- One iteration body of the `Compile` loop (compiler.go:105..229):
dispatch the current token to its encoder, record a label, or print
the "Unhandled token" diagnostic and continue. -/
def step (ts : List Token) (st : CState) :
    Except CErr (List Token × CState) :=
  let t := curTok ts
  match t.type with
  | .LABEL =>
    .ok (ts, { st with labels := (trimColon t.literal, st.bytecode.length) :: st.labels })
  | .EXIT => .ok (ts, emit st [opcode.EXIT])
  | .INC => oneRegOp opcode.INC_OP ts st
  | .DEC => oneRegOp opcode.DEC_OP ts st
  | .RANDOM => oneRegOp opcode.INT_RANDOM ts st
  | .RET => .ok (ts, emit st [opcode.STACK_RET])
  | .CALL => callOp ts st
  | .IS_INTEGER => oneRegOp opcode.IS_INTEGER ts st
  | .IS_STRING => oneRegOp opcode.IS_STRING ts st
  | .STRING2INT => oneRegOp opcode.STRING_TOINT ts st
  | .INT2STRING => oneRegOp opcode.INT_TOSTRING ts st
  | .SYSTEM => oneRegOp opcode.STRING_SYSTEM ts st
  | .CMP => cmpOp ts st
  | .CONCAT => threeRegOp opcode.STRING_CONCAT ts st
  | .DB => dataOp ts st
  | .DATA => dataOp ts st
  | .GOTO => jumpOp opcode.JUMP_TO ts st
  | .TRAP => trapOp ts st
  | .JMP => jumpOp opcode.JUMP_TO ts st
  | .JMPZ => jumpOp opcode.JUMP_Z ts st
  | .JMPNZ => jumpOp opcode.JUMP_NZ ts st
  | .MEMCPY => threeRegOp opcode.MEMCPY ts st
  | .NOP => .ok (ts, emit st [opcode.NOP_OP])
  | .PEEK => twoRegMemOp opcode.PEEK ts st
  | .POKE => twoRegMemOp opcode.POKE ts st
  | .PUSH => oneRegOp opcode.STACK_PUSH ts st
  | .POP => oneRegOp opcode.STACK_POP ts st
  | .STORE => storeOp ts st
  | .PRINT_INT => oneRegOp opcode.INT_PRINT ts st
  | .PRINT_STR => oneRegOp opcode.STRING_PRINT ts st
  | .ADD => mathOperation opcode.ADD_OP ts st
  | .XOR => mathOperation opcode.XOR_OP ts st
  | .SUB => mathOperation opcode.SUB_OP ts st
  | .MUL => mathOperation opcode.MUL_OP ts st
  | .DIV => mathOperation opcode.DIV_OP ts st
  | .AND => mathOperation opcode.AND_OP ts st
  | .OR => mathOperation opcode.OR_OP ts st
  | _ => .ok (ts, warn st (.unhandledToken t))

/-- The scanning loop of `Compile` (compiler.go:105..229): process the
current token and advance until EOF.  Each iteration consumes at least
one token of the stream, so the fuel `ts.length + 1` supplied by
`compile` is never exhausted. -/
def runLoop : Nat → List Token → CState → Except CErr CState
  | 0, _, st => .ok st
  | fuel + 1, ts, st =>
    if (curTok ts).type = .EOF then .ok st
    else
      match step ts st with
      | .error e => .error e
      | .ok (ts', st') => runLoop fuel (adv ts') st'

/-- The Go map read `p.labels[name]` (compiler.go:233): the offset of
the most recent definition, or the zero value 0 when the label is
absent. -/
def lookupLabel (labels : List (String × Nat)) (name : String) : Nat :=
  match labels.find? (fun e => e.1 == name) with
  | some e => e.2
  | none => 0

/-- One iteration of the fixup loop (compiler.go:232..243): look the
label up (zero value 0 when absent), print the possible-undefined
warning when the looked-up value is 0, and overwrite the two
placeholder bytes with the low/high split of the value. -/
def applyFixup (labels : List (String × Nat)) (acc : List Nat × List Warning)
    (e : Nat × String) : List Nat × List Warning :=
  let value := lookupLabel labels e.2
  let ws := if value = 0 then acc.2 ++ [Warning.possibleUndefinedLabel e.2] else acc.2
  let p1 := value % 256
  let p2 := (value - p1) / 256
  ((acc.1.set e.1 (p1 % 256)).set (e.1 + 1) (p2 % 256), ws)

/-- The fixup pass of `Compile` (compiler.go:231..243). -/
def fixupPass (labels : List (String × Nat)) (fixups : List (Nat × String))
    (bc : List Nat) (ws : List Warning) : List Nat × List Warning :=
  fixups.foldl (applyFixup labels) (bc, ws)

/-- `Compile` (compiler.go:101..244): run the scanning loop from a
fresh state, then the fixup pass.  An `.error` result models
`os.Exit(1)`/`panic` aborting the process before any output is
written. -/
def compile (ts : List Token) : Except CErr CState :=
  match runLoop (ts.length + 1) ts initState with
  | .error e => .error e
  | .ok st =>
    let r := fixupPass st.labels st.fixups st.bytecode st.warns
    .ok { st with bytecode := r.1, warns := r.2 }

/-- The placeholder invariant of the scanning pass: every recorded
fixup offset points at a 2-byte placeholder lying wholly inside the
bytecode buffer. -/
def fixInv (st : CState) : Prop :=
  ∀ e ∈ st.fixups, e.1 + 1 < st.bytecode.length

/-! Theorems about the embedded compiler. -/

/-- C1: compiling the program `jmp target` / `:target` / `exit`
produces the bytecode [JUMP_TO, 3, 0, EXIT]: the two placeholder bytes
at offsets 1 and 2 are patched during the fixup pass with the
little-endian split (3, 0) of the buffer length 3 that was recorded in
the symbol table when the label `target` was defined, which is the
offset at which the `exit` opcode was written. -/
theorem c1_forward_reference_resolution :
    compile [⟨.JMP, "jmp"⟩, ⟨.IDENT, "target"⟩, ⟨.LABEL, ":target"⟩, ⟨.EXIT, "exit"⟩] =
      .ok ⟨[opcode.JUMP_TO, 3, 0, opcode.EXIT], [("target", 3)], [(1, "target")], []⟩ := by
  decide

/-- C9: compiling `store #16, 1` aborts with the fatal
register-out-of-bounds error of `getRegister` (modelling
`os.Exit(1)`): the result is an error carrying no bytecode, so no
bytes for the statement are appended and no output artifact is
produced. -/
theorem c9_out_of_range_register_fatal :
    compile [⟨.STORE, "store"⟩, ⟨.IDENT, "#16"⟩, ⟨.COMMA, ","⟩, ⟨.INT, "1"⟩] =
      .error (.regOutOfBounds "#16") := by
  decide

/-- C6: for every register index r in 0..15, compiling the single
statement `store #r, 42` produces exactly the four bytes
[INT_STORE, r, 42, 0]. -/
theorem c6_register_round_trip (r : Nat) (h : r < 16) :
    compile [⟨.STORE, "store"⟩, ⟨.IDENT, "#" ++ toString r⟩, ⟨.COMMA, ","⟩, ⟨.INT, "42"⟩] =
      .ok ⟨[opcode.INT_STORE, r, 42, 0], [], [], []⟩ := by
  have H : ∀ r : Fin 16,
      compile [⟨.STORE, "store"⟩, ⟨.IDENT, "#" ++ toString r.val⟩, ⟨.COMMA, ","⟩, ⟨.INT, "42"⟩] =
        .ok ⟨[opcode.INT_STORE, r.val, 42, 0], [], [], []⟩ := by decide
  exact H ⟨r, h⟩

/-- C6 witness: the theorem instantiated at register 7. -/
theorem c6_register_round_trip_witness :
    compile [⟨.STORE, "store"⟩, ⟨.IDENT, "#" ++ toString 7⟩, ⟨.COMMA, ","⟩, ⟨.INT, "42"⟩] =
      .ok ⟨[opcode.INT_STORE, 7, 42, 0], [], [], []⟩ :=
  c6_register_round_trip 7 (by decide)

/-- C2 counterexample: for the program `:start` / `jmp start` the label
`start` is present in the symbol table (defined at byte offset 0, as
the second conjunct's successful lookup shows), yet the fixup pass
still emits the unresolved-label report, because the Go code tests the
looked-up value against the map's zero value 0 instead of testing
presence. -/
theorem c2_zero_offset_counterexample :
    compile [⟨.LABEL, ":start"⟩, ⟨.JMP, "jmp"⟩, ⟨.IDENT, "start"⟩] =
      .ok ⟨[opcode.JUMP_TO, 0, 0], [("start", 0)], [(1, "start")],
        [.possibleUndefinedLabel "start"]⟩ ∧
    (([("start", 0)] : List (String × Nat)).find? (fun e => e.1 == "start")).isSome = true := by
  constructor
  · decide
  · decide

theorem fixupPass_step (labels : List (String × Nat)) (e : Nat × String)
    (es : List (Nat × String)) (bc : List Nat) (ws : List Warning) :
    fixupPass labels (e :: es) bc ws =
      fixupPass labels es (applyFixup labels (bc, ws) e).1 (applyFixup labels (bc, ws) e).2 := rfl

theorem fixupPass_warn_mem (labels : List (String × Nat)) (name : String) :
    ∀ (fixups : List (Nat × String)) (bc : List Nat) (ws : List Warning),
      Warning.possibleUndefinedLabel name ∈ (fixupPass labels fixups bc ws).2 ↔
        Warning.possibleUndefinedLabel name ∈ ws ∨
          ((∃ a, (a, name) ∈ fixups) ∧ lookupLabel labels name = 0) := by
  intro fixups
  induction fixups with
  | nil =>
    intro bc ws
    simp [fixupPass]
  | cons e es ih =>
    obtain ⟨ea, en⟩ := e
    intro bc ws
    rw [fixupPass_step, ih]
    by_cases h0 : lookupLabel labels en = 0
    · have h2 : (applyFixup labels (bc, ws) (ea, en)).2 =
          ws ++ [Warning.possibleUndefinedLabel en] := by
        simp [applyFixup, h0]
      rw [h2]
      by_cases hn : name = en
      · subst hn
        constructor
        · intro h3
          exact Or.inr ⟨⟨ea, List.mem_cons_self _ _⟩, h0⟩
        · intro h3
          exact Or.inl (List.mem_append.mpr (Or.inr (List.mem_cons_self _ _)))
      · simp only [List.mem_append, List.mem_cons, List.not_mem_nil, Prod.mk.injEq,
          Warning.possibleUndefinedLabel.injEq, or_false]
        constructor
        · rintro (⟨hw | hw⟩ | ⟨⟨a, ha⟩, hl⟩)
          · exact Or.inl hw
          · exact absurd hw hn
          · exact Or.inr ⟨⟨a, Or.inr ha⟩, hl⟩
        · rintro (hw | ⟨⟨a, ⟨h3, h4⟩ | ha⟩, hl⟩)
          · exact Or.inl (Or.inl hw)
          · exact absurd h4 hn
          · exact Or.inr ⟨⟨a, ha⟩, hl⟩
    · have h2 : (applyFixup labels (bc, ws) (ea, en)).2 = ws := by
        simp [applyFixup, h0]
      rw [h2]
      simp only [List.mem_cons, Prod.mk.injEq]
      constructor
      · rintro (hw | ⟨⟨a, ha⟩, hl⟩)
        · exact Or.inl hw
        · exact Or.inr ⟨⟨a, Or.inr ha⟩, hl⟩
      · rintro (hw | ⟨⟨a, ⟨h3, h4⟩ | ha⟩, hl⟩)
        · exact Or.inl hw
        · exact absurd (by rw [← h4]; exact hl) h0
        · exact Or.inr ⟨⟨a, ha⟩, hl⟩

/-- C2 amended: during the fixup pass, the unresolved-label report for
a label name is emitted if and only if some fixup entry carries that
name and the symbol-table lookup yields the Go zero value 0, which
happens both when the name is absent and when the label was defined at
byte offset 0; presence in the symbol table does not suppress the
report for a label defined at offset 0 (and the 2-byte patch is
written in every case, see the frame theorem of the fixup pass). -/
theorem c2_unresolved_report_amended (labels : List (String × Nat))
    (fixups : List (Nat × String)) (bc : List Nat) (name : String) :
    Warning.possibleUndefinedLabel name ∈ (fixupPass labels fixups bc []).2 ↔
      (∃ a, (a, name) ∈ fixups) ∧ lookupLabel labels name = 0 := by
  rw [fixupPass_warn_mem]
  simp

/-- C3 counterexample: giving `trap` a label operand is not a fatal
error: compiling `trap t` / `exit` succeeds (the "Fail!" diagnostic is
recorded and compilation continues) and produces the bytecode of the
following `exit` statement, contradicting "compilation aborts
immediately and produces no bytecode output". -/
theorem c3_trap_label_counterexample :
    compile [⟨.TRAP, "trap"⟩, ⟨.IDENT, "t"⟩, ⟨.EXIT, "exit"⟩] =
      .ok ⟨[opcode.EXIT], [], [], [.trapFail]⟩ := by
  decide

/-- C3 amended: for the `trap` statement only an absolute integer
operand is encoded; a label or register operand (any non-INT token)
makes `trapOp` print the "Fail!" diagnostic and emit no bytes for the
statement, after which compilation continues and bytecode for the
rest of the program is still produced (illustrated by the second
conjunct, where the `nop` after the rejected `trap` is still
compiled). -/
theorem c3_trap_diagnostic_amended :
    (∀ (ts : List Token) (st : CState), (curTok (adv ts)).type ≠ .INT →
      trapOp ts st = .ok (adv ts, warn st .trapFail)) ∧
    compile [⟨.TRAP, "trap"⟩, ⟨.IDENT, "t"⟩, ⟨.NOP, "nop"⟩] =
      .ok ⟨[opcode.NOP_OP], [], [], [.trapFail]⟩ := by
  constructor
  · intro ts st h
    unfold trapOp
    dsimp only
    split
    · next heq => exact absurd heq h
    · rfl
  · decide

/-- C3 amended witness: the amended theorem applied to a `trap` whose
operand is a string literal. -/
theorem c3_trap_diagnostic_amended_witness :
    trapOp [⟨.TRAP, "trap"⟩, ⟨.STRING, "s"⟩] initState =
      .ok (adv [⟨.TRAP, "trap"⟩, ⟨.STRING, "s"⟩], warn initState .trapFail) :=
  c3_trap_diagnostic_amended.1 [⟨.TRAP, "trap"⟩, ⟨.STRING, "s"⟩] initState (by decide)

/-- C4 counterexample: `jmp` given a string-literal operand (neither
integer nor identifier) does not cause a fatal error: the jump opcode
is emitted with no operand bytes at all and no diagnostic, and the
following `exit` is compiled as if nothing were wrong — the statement
is silently emitted with missing operand bytes, contradicting the
claim. -/
theorem c4_jump_silent_counterexample :
    compile [⟨.JMP, "jmp"⟩, ⟨.STRING, "x"⟩, ⟨.EXIT, "exit"⟩] =
      .ok ⟨[opcode.JUMP_TO, opcode.EXIT], [], [], []⟩ := by
  decide

/-- C4 amended: `store` and `cmp` given an operand token that is
neither literal nor identifier abort with the fatal error naming the
offending token, but `jmp` (and `jmpz`/`jmpnz`/`goto`, which share
`jumpOp`) and `call` given an operand that is neither an integer nor
an identifier fall through their operand switch silently: only the
opcode byte is emitted, with no operand bytes and no diagnostic. -/
theorem c4_unencodable_operand_amended :
    (∀ (t0 t1 t2 t3 : Token) (rest : List Token) (st : CState) (r : Nat),
      t1.type = .IDENT → getRegister t1.literal = .ok r → t2.type = .COMMA →
      t3.type ≠ .STRING → t3.type ≠ .INT → t3.type ≠ .IDENT →
      storeOp (t0 :: t1 :: t2 :: t3 :: rest) st = .error (.invalidStore t3)) ∧
    (∀ (t0 t1 t2 t3 : Token) (rest : List Token) (st : CState) (r : Nat),
      t1.type = .IDENT → getRegister t1.literal = .ok r → t2.type = .COMMA →
      t3.type ≠ .STRING → t3.type ≠ .INT → t3.type ≠ .IDENT →
      cmpOp (t0 :: t1 :: t2 :: t3 :: rest) st = .error (.invalidStore t3)) ∧
    (∀ (t0 t1 : Token) (rest : List Token) (st : CState) (op : Nat),
      t1.type ≠ .INT → t1.type ≠ .IDENT →
      jumpOp op (t0 :: t1 :: rest) st = .ok (t1 :: rest, emit st [op])) ∧
    (∀ (t0 t1 : Token) (rest : List Token) (st : CState),
      t1.type ≠ .INT → t1.type ≠ .IDENT →
      callOp (t0 :: t1 :: rest) st = .ok (t1 :: rest, emit st [opcode.STACK_CALL])) := by
  refine ⟨?_, ?_, ?_, ?_⟩
  · intro t0 t1 t2 t3 rest st r h1 hr h2 h3 h4 h5
    simp only [storeOp, Bind.bind, Except.bind, expectPeek, peekTok, adv, curTok,
      List.drop_succ_cons, List.drop_zero, List.headD_cons, h1, h2, hr,
      eq_self_iff_true, if_true, ite_true]
  · intro t0 t1 t2 t3 rest st r h1 hr h2 h3 h4 h5
    simp only [cmpOp, Bind.bind, Except.bind, expectPeek, peekTok, adv, curTok,
      List.drop_succ_cons, List.drop_zero, List.headD_cons, h1, h2, hr,
      eq_self_iff_true, if_true, ite_true]
  · intro t0 t1 rest st op h1 h2
    unfold jumpOp
    dsimp only
    split
    · next heq => exact absurd heq h1
    · next heq => exact absurd heq h2
    · rfl
  · intro t0 t1 rest st h1 h2
    unfold callOp
    dsimp only
    split
    · next heq => exact absurd heq h1
    · next heq => exact absurd heq h2
    · rfl

/-- C4 amended witness: the four parts applied to concrete statements
whose operand is a comma token. -/
theorem c4_unencodable_operand_amended_witness :
    storeOp [⟨.STORE, "store"⟩, ⟨.IDENT, "#1"⟩, ⟨.COMMA, ","⟩, ⟨.COMMA, ","⟩] initState =
      .error (.invalidStore ⟨.COMMA, ","⟩) ∧
    cmpOp [⟨.CMP, "cmp"⟩, ⟨.IDENT, "#1"⟩, ⟨.COMMA, ","⟩, ⟨.COMMA, ","⟩] initState =
      .error (.invalidStore ⟨.COMMA, ","⟩) ∧
    jumpOp opcode.JUMP_TO [⟨.JMP, "jmp"⟩, ⟨.STRING, "x"⟩] initState =
      .ok ([⟨.STRING, "x"⟩], emit initState [opcode.JUMP_TO]) ∧
    callOp [⟨.CALL, "call"⟩, ⟨.STRING, "x"⟩] initState =
      .ok ([⟨.STRING, "x"⟩], emit initState [opcode.STACK_CALL]) :=
  ⟨c4_unencodable_operand_amended.1 ⟨.STORE, "store"⟩ ⟨.IDENT, "#1"⟩ ⟨.COMMA, ","⟩
      ⟨.COMMA, ","⟩ [] initState 1 (by decide) (by decide) (by decide)
      (by decide) (by decide) (by decide),
    c4_unencodable_operand_amended.2.1 ⟨.CMP, "cmp"⟩ ⟨.IDENT, "#1"⟩ ⟨.COMMA, ","⟩
      ⟨.COMMA, ","⟩ [] initState 1 (by decide) (by decide) (by decide)
      (by decide) (by decide) (by decide),
    c4_unencodable_operand_amended.2.2.1 ⟨.JMP, "jmp"⟩ ⟨.STRING, "x"⟩ [] initState
      opcode.JUMP_TO (by decide) (by decide),
    c4_unencodable_operand_amended.2.2.2 ⟨.CALL, "call"⟩ ⟨.STRING, "x"⟩ [] initState
      (by decide) (by decide)⟩

/-- C5 counterexample: for the three-operand statement
`add #1, 5, 6` the integer 5 sits where an identifier was expected
after the first comma; `mathOperation` returns silently instead of
reporting a fatal parse error, and compilation continues to the end of
the stream (emitting nothing for the `add` and merely warning about
the now-unhandled leftover tokens), contradicting "any deviation is a
fatal, immediately-reported parse error". -/
theorem c5_silent_operand_skip_counterexample :
    compile [⟨.ADD, "add"⟩, ⟨.IDENT, "#1"⟩, ⟨.COMMA, ","⟩, ⟨.INT, "5"⟩,
        ⟨.COMMA, ","⟩, ⟨.INT, "6"⟩] =
      .ok ⟨[], [], [], [.unhandledToken ⟨.COMMA, ","⟩, .unhandledToken ⟨.INT, "6"⟩]⟩ := by
  decide

/-- C5 amended: the positions guarded by `expectPeek` (the first
operand where one is checked, and each comma) do abort fatally on a
wrong token kind, with a message naming the expected kind and the kind
of the current token (the token before the offending one).  But a
wrong token kind at a post-comma operand position that is checked
directly against IDENT — the first and the second post-comma position
of `mathOperation` (second and third conjuncts) and the post-comma
position of `peekOp`/`pokeOp` (`twoRegMemOp`, fourth conjunct) —
makes the encoder return silently:
no bytes, no diagnostic, no abort, and compilation continues with the
offending token as the new current token.  And `memcpy`/`concat`
(`threeRegOp`) check no operand token kinds at all: any operand token
whose literal parses as an in-range register number is accepted and
the statement's bytecode is emitted (fifth conjunct), so
`memcpy 5, 6, 7` — wrong-kind operands everywhere — compiles without
any report to the four bytes [MEMCPY, 5, 6, 7] (sixth conjunct). -/
theorem c5_statement_shape_amended :
    (∀ (t : TokenType) (ts : List Token), (peekTok ts).type ≠ t →
      expectPeek t ts = .error (.expectedGot t (curTok ts).type)) ∧
    (∀ (t0 t1 t2 t3 : Token) (rest : List Token) (st : CState) (op r : Nat),
      t1.type = .IDENT → getRegister t1.literal = .ok r → t2.type = .COMMA →
      t3.type ≠ .IDENT →
      mathOperation op (t0 :: t1 :: t2 :: t3 :: rest) st = .ok (t3 :: rest, st)) ∧
    (∀ (t0 t1 t2 t3 t4 t5 : Token) (rest : List Token) (st : CState) (op r1 r2 : Nat),
      t1.type = .IDENT → getRegister t1.literal = .ok r1 → t2.type = .COMMA →
      t3.type = .IDENT → getRegister t3.literal = .ok r2 → t4.type = .COMMA →
      t5.type ≠ .IDENT →
      mathOperation op (t0 :: t1 :: t2 :: t3 :: t4 :: t5 :: rest) st =
        .ok (t5 :: rest, st)) ∧
    (∀ (t0 t1 t2 t3 : Token) (rest : List Token) (st : CState) (op r : Nat),
      t1.type = .IDENT → getRegister t1.literal = .ok r → t2.type = .COMMA →
      t3.type ≠ .IDENT →
      twoRegMemOp op (t0 :: t1 :: t2 :: t3 :: rest) st = .ok (t3 :: rest, st)) ∧
    (∀ (t0 t1 t2 t3 t4 t5 : Token) (rest : List Token) (st : CState) (op r1 r2 r3 : Nat),
      getRegister t1.literal = .ok r1 → t2.type = .COMMA →
      getRegister t3.literal = .ok r2 → t4.type = .COMMA →
      getRegister t5.literal = .ok r3 →
      threeRegOp op (t0 :: t1 :: t2 :: t3 :: t4 :: t5 :: rest) st =
        .ok (t5 :: rest, emit st [op, r1, r2, r3])) ∧
    compile [⟨.MEMCPY, "memcpy"⟩, ⟨.INT, "5"⟩, ⟨.COMMA, ","⟩, ⟨.INT, "6"⟩,
        ⟨.COMMA, ","⟩, ⟨.INT, "7"⟩] =
      .ok ⟨[opcode.MEMCPY, 5, 6, 7], [], [], []⟩ := by
  refine ⟨?_, ?_, ?_, ?_, ?_, by decide⟩
  · intro t ts h
    unfold expectPeek
    rw [if_neg h]
  · intro t0 t1 t2 t3 rest st op r h1 hr h2 h3
    simp only [mathOperation, Bind.bind, Except.bind, expectPeek, peekTok, adv, curTok,
      List.drop_succ_cons, List.drop_zero, List.headD_cons, h1, h2, hr,
      eq_self_iff_true, if_true, ite_true, h3, ite_false, if_false]
  · intro t0 t1 t2 t3 t4 t5 rest st op r1 r2 h1 hr1 h2 h3 hr2 h4 h5
    simp only [mathOperation, Bind.bind, Except.bind, expectPeek, peekTok, adv, curTok,
      List.drop_succ_cons, List.drop_zero, List.headD_cons, h1, h2, h3, h4, hr1, hr2,
      eq_self_iff_true, if_true, ite_true, h5, ite_false, if_false]
  · intro t0 t1 t2 t3 rest st op r h1 hr h2 h3
    simp only [twoRegMemOp, Bind.bind, Except.bind, expectPeek, peekTok, adv, curTok,
      List.drop_succ_cons, List.drop_zero, List.headD_cons, h1, h2, hr,
      eq_self_iff_true, if_true, ite_true, h3, ite_false, if_false]
  · intro t0 t1 t2 t3 t4 t5 rest st op r1 r2 r3 hr1 h2 hr2 h4 hr3
    simp only [threeRegOp, Bind.bind, Except.bind, expectPeek, peekTok, adv, curTok,
      List.drop_succ_cons, List.drop_zero, List.headD_cons, h2, h4, hr1, hr2, hr3,
      eq_self_iff_true, if_true, ite_true]

/-- C5 amended witness: `expectPeek` aborting on `add 5, ...` (integer
where the first register identifier was expected); `mathOperation`
silently skipping on `add #1, 5, 6` (first post-comma position) and on
`add #1, #2, 5` (second post-comma position); `peekOp` via
`twoRegMemOp` silently skipping on `peek #1, 5`; and `threeRegOp`
accepting the wrong-kind integer operands of `memcpy 5, 6, 7` as
register numbers. -/
theorem c5_statement_shape_amended_witness :
    expectPeek .IDENT [⟨.ADD, "add"⟩, ⟨.INT, "5"⟩] =
      .error (.expectedGot .IDENT (curTok [⟨.ADD, "add"⟩, ⟨.INT, "5"⟩]).type) ∧
    mathOperation opcode.ADD_OP [⟨.ADD, "add"⟩, ⟨.IDENT, "#1"⟩, ⟨.COMMA, ","⟩,
        ⟨.INT, "5"⟩, ⟨.COMMA, ","⟩, ⟨.INT, "6"⟩] initState =
      .ok ([⟨.INT, "5"⟩, ⟨.COMMA, ","⟩, ⟨.INT, "6"⟩], initState) ∧
    mathOperation opcode.ADD_OP [⟨.ADD, "add"⟩, ⟨.IDENT, "#1"⟩, ⟨.COMMA, ","⟩,
        ⟨.IDENT, "#2"⟩, ⟨.COMMA, ","⟩, ⟨.INT, "5"⟩] initState =
      .ok ([⟨.INT, "5"⟩], initState) ∧
    twoRegMemOp opcode.PEEK [⟨.PEEK, "peek"⟩, ⟨.IDENT, "#1"⟩, ⟨.COMMA, ","⟩,
        ⟨.INT, "5"⟩] initState =
      .ok ([⟨.INT, "5"⟩], initState) ∧
    threeRegOp opcode.MEMCPY [⟨.MEMCPY, "memcpy"⟩, ⟨.INT, "5"⟩, ⟨.COMMA, ","⟩,
        ⟨.INT, "6"⟩, ⟨.COMMA, ","⟩, ⟨.INT, "7"⟩] initState =
      .ok ([⟨.INT, "7"⟩], emit initState [opcode.MEMCPY, 5, 6, 7]) :=
  ⟨c5_statement_shape_amended.1 .IDENT [⟨.ADD, "add"⟩, ⟨.INT, "5"⟩] (by decide),
    c5_statement_shape_amended.2.1 ⟨.ADD, "add"⟩ ⟨.IDENT, "#1"⟩ ⟨.COMMA, ","⟩ ⟨.INT, "5"⟩
      [⟨.COMMA, ","⟩, ⟨.INT, "6"⟩] initState opcode.ADD_OP 1
      (by decide) (by decide) (by decide) (by decide),
    c5_statement_shape_amended.2.2.1 ⟨.ADD, "add"⟩ ⟨.IDENT, "#1"⟩ ⟨.COMMA, ","⟩
      ⟨.IDENT, "#2"⟩ ⟨.COMMA, ","⟩ ⟨.INT, "5"⟩ [] initState opcode.ADD_OP 1 2
      (by decide) (by decide) (by decide) (by decide) (by decide) (by decide) (by decide),
    c5_statement_shape_amended.2.2.2.1 ⟨.PEEK, "peek"⟩ ⟨.IDENT, "#1"⟩ ⟨.COMMA, ","⟩
      ⟨.INT, "5"⟩ [] initState opcode.PEEK 1
      (by decide) (by decide) (by decide) (by decide),
    c5_statement_shape_amended.2.2.2.2.1 ⟨.MEMCPY, "memcpy"⟩ ⟨.INT, "5"⟩ ⟨.COMMA, ","⟩
      ⟨.INT, "6"⟩ ⟨.COMMA, ","⟩ ⟨.INT, "7"⟩ [] initState opcode.MEMCPY 5 6 7
      (by decide) (by decide) (by decide) (by decide) (by decide)⟩

theorem goByte_lt (x : Int) : goByte x < 256 := by
  unfold goByte
  omega

theorem le16_ofNat (n : Nat) : le16 (Int.ofNat n) = [n % 256, n / 256 % 256] := by
  unfold le16 goByte
  dsimp only
  rw [show (256 : Int) = Int.ofNat 256 from rfl]
  rw [show Int.tmod (Int.ofNat n) (Int.ofNat 256) = Int.ofNat (n % 256) from
    (Int.ofNat_tmod n 256).symm]
  rw [show Int.ofNat n - Int.ofNat (n % 256) = Int.ofNat (n - n % 256) by
    simp only [Int.ofNat_eq_coe]
    omega]
  rw [show Int.tdiv (Int.ofNat (n - n % 256)) (Int.ofNat 256) =
    Int.ofNat ((n - n % 256) / 256) from (Int.ofNat_tdiv _ 256).symm]
  rw [show (n - n % 256) / 256 = n / 256 by omega]
  simp only [List.cons.injEq, and_true, Int.ofNat_eq_coe]
  constructor
  · omega
  · omega

/-- C7: every multi-byte numeric field is emitted through the single
2-byte little-endian computation `le16` (string length, 16-bit
immediate, jump/call target in the encoders; the fixup pass applies
the identical low/high split in `applyFixup`): the result is always
exactly 2 bytes, each below 256, computed for a nonnegative value per
the claim formula low = value mod 256, high = (value - low) / 256 with
each byte reduced mod 256, and a value outside the 16-bit range
silently wraps modulo 65536 instead of raising an error. -/
theorem c7_two_byte_little_endian (v : Int) (n b : Nat) (hb : b ∈ le16 v) :
    (le16 v).length = 2 ∧ b < 256 ∧
    le16 (Int.ofNat n) = [(n % 256) % 256, ((n - n % 256) / 256) % 256] ∧
    le16 (Int.ofNat n) = le16 (Int.ofNat (n % 65536)) := by
  refine ⟨rfl, ?_, ?_, ?_⟩
  · simp only [le16, List.mem_cons, List.not_mem_nil, or_false] at hb
    rcases hb with hb | hb <;> exact hb ▸ goByte_lt _
  · rw [le16_ofNat]
    simp only [List.cons.injEq, and_true]
    constructor
    · omega
    · omega
  · rw [le16_ofNat, le16_ofNat]
    simp only [List.cons.injEq, and_true]
    constructor
    · omega
    · omega

/-- C7 witness: the theorem applied at the out-of-range values -1 and
70000, with 255 the low byte actually emitted for -1. -/
theorem c7_two_byte_little_endian_witness :
    (le16 (-1)).length = 2 ∧ 255 < 256 ∧
    le16 (Int.ofNat 70000) =
      [(70000 % 256) % 256, ((70000 - 70000 % 256) / 256) % 256] ∧
    le16 (Int.ofNat 70000) = le16 (Int.ofNat (70000 % 65536)) :=
  c7_two_byte_little_endian (-1) 70000 255 (by decide)

/-- C8: a fixup whose label has no symbol-table entry at resolution
time only produces the possible-undefined warning and compilation
proceeds: `applyFixup` still patches the two placeholder bytes with
the zero value returned by the failed map lookup (first conjunct), and
a whole program containing such a reference still compiles to a
bytecode output (second conjunct: `jmp missing` / `exit` yields
[JUMP_TO, 0, 0, EXIT] plus the warning). -/
theorem c8_unresolved_label_warns_and_patches_zero :
    (∀ (labels : List (String × Nat)) (bc : List Nat) (ws : List Warning)
        (a : Nat) (n : String),
      labels.find? (fun e => e.1 == n) = none →
      applyFixup labels (bc, ws) (a, n) =
        ((bc.set a 0).set (a + 1) 0, ws ++ [.possibleUndefinedLabel n])) ∧
    compile [⟨.JMP, "jmp"⟩, ⟨.IDENT, "missing"⟩, ⟨.EXIT, "exit"⟩] =
      .ok ⟨[opcode.JUMP_TO, 0, 0, opcode.EXIT], [], [(1, "missing")],
        [.possibleUndefinedLabel "missing"]⟩ := by
  constructor
  · intro labels bc ws a n h
    simp [applyFixup, lookupLabel, h]
  · decide

/-- C8 witness: the first conjunct applied to a concrete buffer and an
absent label. -/
theorem c8_unresolved_label_witness :
    applyFixup [("a", 3)] ([9, 9, 9], []) (0, "b") =
      (([9, 9, 9].set 0 0).set (0 + 1) 0, [] ++ [.possibleUndefinedLabel "b"]) :=
  c8_unresolved_label_warns_and_patches_zero.1 [("a", 3)] [9, 9, 9] [] 0 "b" (by decide)

theorem fixInv_emit {st : CState} (bs : List Nat) (h : fixInv st) :
    fixInv (emit st bs) := by
  intro e he
  have h2 := h e he
  simp only [emit, List.length_append]
  omega

theorem fixInv_addFixup {st : CState} (n : String) (h : fixInv st) :
    fixInv (addFixup st n) := by
  intro e he
  simp only [addFixup, List.mem_append, List.mem_cons, List.not_mem_nil, or_false] at he
  simp only [addFixup, List.length_append]
  rcases he with he | he
  · have h2 := h e he
    simp only [List.length_cons, List.length_nil]
    omega
  · subst he
    simp

theorem fixInv_warn {st : CState} {w : Warning} (h : fixInv st) : fixInv (warn st w) := h

theorem oneRegOp_fixInv {op : Nat} {ts ts' : List Token} {st st' : CState}
    (hrun : oneRegOp op ts st = .ok (ts', st')) (h : fixInv st) : fixInv st' := by
  unfold oneRegOp at hrun
  cases h1 : expectPeek .IDENT ts with
  | error e => rw [h1] at hrun; simp [Bind.bind, Except.bind] at hrun
  | ok ts1 =>
    rw [h1] at hrun
    simp only [Bind.bind, Except.bind] at hrun
    cases h2 : getRegister (curTok ts1).literal with
    | error e => rw [h2] at hrun; simp [Bind.bind, Except.bind] at hrun
    | ok r =>
      rw [h2] at hrun
      simp only [Bind.bind, Except.bind, Except.ok.injEq, Prod.mk.injEq] at hrun
      obtain ⟨-, h4⟩ := hrun
      exact h4 ▸ fixInv_emit _ h

theorem twoRegMemOp_fixInv {op : Nat} {ts ts' : List Token} {st st' : CState}
    (hrun : twoRegMemOp op ts st = .ok (ts', st')) (h : fixInv st) : fixInv st' := by
  unfold twoRegMemOp at hrun
  cases h1 : expectPeek .IDENT ts with
  | error e => rw [h1] at hrun; simp [Bind.bind, Except.bind] at hrun
  | ok ts1 =>
    rw [h1] at hrun
    simp only [Bind.bind, Except.bind] at hrun
    cases h2 : getRegister (curTok ts1).literal with
    | error e => rw [h2] at hrun; simp [Bind.bind, Except.bind] at hrun
    | ok a =>
      rw [h2] at hrun
      simp only [Bind.bind, Except.bind] at hrun
      cases h3 : expectPeek .COMMA ts1 with
      | error e => rw [h3] at hrun; simp [Bind.bind, Except.bind] at hrun
      | ok ts2 =>
        rw [h3] at hrun
        simp only [Bind.bind, Except.bind] at hrun
        split at hrun
        · cases h4 : getRegister (curTok (adv ts2)).literal with
          | error e => rw [h4] at hrun; simp [Bind.bind, Except.bind] at hrun
          | ok b =>
            rw [h4] at hrun
            simp only [Bind.bind, Except.bind, Except.ok.injEq, Prod.mk.injEq] at hrun
            obtain ⟨-, h5⟩ := hrun
            exact h5 ▸ fixInv_emit _ h
        · simp only [Except.ok.injEq, Prod.mk.injEq] at hrun
          obtain ⟨-, h5⟩ := hrun
          exact h5 ▸ h

theorem mathOperation_fixInv {op : Nat} {ts ts' : List Token} {st st' : CState}
    (hrun : mathOperation op ts st = .ok (ts', st')) (h : fixInv st) : fixInv st' := by
  unfold mathOperation at hrun
  cases h1 : expectPeek .IDENT ts with
  | error e => rw [h1] at hrun; simp [Bind.bind, Except.bind] at hrun
  | ok ts1 =>
    rw [h1] at hrun
    simp only [Bind.bind, Except.bind] at hrun
    cases h2 : getRegister (curTok ts1).literal with
    | error e => rw [h2] at hrun; simp [Bind.bind, Except.bind] at hrun
    | ok dst =>
      rw [h2] at hrun
      simp only [Bind.bind, Except.bind] at hrun
      cases h3 : expectPeek .COMMA ts1 with
      | error e => rw [h3] at hrun; simp [Bind.bind, Except.bind] at hrun
      | ok ts2 =>
        rw [h3] at hrun
        simp only [Bind.bind, Except.bind] at hrun
        split at hrun
        · cases h4 : getRegister (curTok (adv ts2)).literal with
          | error e => rw [h4] at hrun; simp [Bind.bind, Except.bind] at hrun
          | ok src1 =>
            rw [h4] at hrun
            simp only [Bind.bind, Except.bind] at hrun
            cases h5 : expectPeek .COMMA (adv ts2) with
            | error e => rw [h5] at hrun; simp [Bind.bind, Except.bind] at hrun
            | ok ts3 =>
              rw [h5] at hrun
              simp only [Bind.bind, Except.bind] at hrun
              split at hrun
              · cases h6 : getRegister (curTok (adv ts3)).literal with
                | error e => rw [h6] at hrun; simp [Bind.bind, Except.bind] at hrun
                | ok src2 =>
                  rw [h6] at hrun
                  simp only [Bind.bind, Except.bind, Except.ok.injEq, Prod.mk.injEq] at hrun
                  obtain ⟨-, h7⟩ := hrun
                  exact h7 ▸ fixInv_emit _ h
              · simp only [Except.ok.injEq, Prod.mk.injEq] at hrun
                obtain ⟨-, h7⟩ := hrun
                exact h7 ▸ h
        · simp only [Except.ok.injEq, Prod.mk.injEq] at hrun
          obtain ⟨-, h7⟩ := hrun
          exact h7 ▸ h

theorem threeRegOp_fixInv {op : Nat} {ts ts' : List Token} {st st' : CState}
    (hrun : threeRegOp op ts st = .ok (ts', st')) (h : fixInv st) : fixInv st' := by
  unfold threeRegOp at hrun
  dsimp only at hrun
  cases h1 : getRegister (curTok (adv ts)).literal with
  | error e => rw [h1] at hrun; simp [Bind.bind, Except.bind] at hrun
  | ok one =>
    rw [h1] at hrun
    simp only [Bind.bind, Except.bind] at hrun
    cases h2 : expectPeek .COMMA (adv ts) with
    | error e => rw [h2] at hrun; simp [Bind.bind, Except.bind] at hrun
    | ok ts1 =>
      rw [h2] at hrun
      simp only [Bind.bind, Except.bind] at hrun
      cases h3 : getRegister (curTok (adv ts1)).literal with
      | error e => rw [h3] at hrun; simp [Bind.bind, Except.bind] at hrun
      | ok two =>
        rw [h3] at hrun
        simp only [Bind.bind, Except.bind] at hrun
        cases h4 : expectPeek .COMMA (adv ts1) with
        | error e => rw [h4] at hrun; simp [Bind.bind, Except.bind] at hrun
        | ok ts2 =>
          rw [h4] at hrun
          simp only [Bind.bind, Except.bind] at hrun
          cases h5 : getRegister (curTok (adv ts2)).literal with
          | error e => rw [h5] at hrun; simp [Bind.bind, Except.bind] at hrun
          | ok three =>
            rw [h5] at hrun
            simp only [Bind.bind, Except.bind, Except.ok.injEq, Prod.mk.injEq] at hrun
            obtain ⟨-, h6⟩ := hrun
            exact h6 ▸ fixInv_emit _ h

theorem jumpOp_fixInv {op : Nat} {ts ts' : List Token} {st st' : CState}
    (hrun : jumpOp op ts st = .ok (ts', st')) (h : fixInv st) : fixInv st' := by
  unfold jumpOp at hrun
  dsimp only at hrun
  split at hrun <;>
    (simp only [Except.ok.injEq, Prod.mk.injEq] at hrun
     obtain ⟨-, h4⟩ := hrun)
  · exact h4 ▸ fixInv_emit _ (fixInv_emit _ h)
  · exact h4 ▸ fixInv_addFixup _ (fixInv_emit _ h)
  · exact h4 ▸ fixInv_emit _ h

theorem callOp_fixInv {ts ts' : List Token} {st st' : CState}
    (hrun : callOp ts st = .ok (ts', st')) (h : fixInv st) : fixInv st' := by
  unfold callOp at hrun
  dsimp only at hrun
  split at hrun <;>
    (simp only [Except.ok.injEq, Prod.mk.injEq] at hrun
     obtain ⟨-, h4⟩ := hrun)
  · exact h4 ▸ fixInv_emit _ (fixInv_emit _ h)
  · exact h4 ▸ fixInv_addFixup _ (fixInv_emit _ h)
  · exact h4 ▸ fixInv_emit _ h

theorem trapOp_fixInv {ts ts' : List Token} {st st' : CState}
    (hrun : trapOp ts st = .ok (ts', st')) (h : fixInv st) : fixInv st' := by
  unfold trapOp at hrun
  dsimp only at hrun
  split at hrun <;>
    (simp only [Except.ok.injEq, Prod.mk.injEq] at hrun
     obtain ⟨-, h4⟩ := hrun)
  · exact h4 ▸ fixInv_emit _ h
  · exact h4 ▸ fixInv_warn h

theorem storeOp_fixInv {ts ts' : List Token} {st st' : CState}
    (hrun : storeOp ts st = .ok (ts', st')) (h : fixInv st) : fixInv st' := by
  unfold storeOp at hrun
  cases h1 : expectPeek .IDENT ts with
  | error e => rw [h1] at hrun; simp [Bind.bind, Except.bind] at hrun
  | ok ts1 =>
    rw [h1] at hrun
    simp only [Bind.bind, Except.bind] at hrun
    cases h2 : getRegister (curTok ts1).literal with
    | error e => rw [h2] at hrun; simp [Bind.bind, Except.bind] at hrun
    | ok reg =>
      rw [h2] at hrun
      simp only [Bind.bind, Except.bind] at hrun
      cases h3 : expectPeek .COMMA ts1 with
      | error e => rw [h3] at hrun; simp [Bind.bind, Except.bind] at hrun
      | ok ts2 =>
        rw [h3] at hrun
        simp only [Bind.bind, Except.bind] at hrun
        split at hrun
        · simp only [Except.ok.injEq, Prod.mk.injEq] at hrun
          obtain ⟨-, h4⟩ := hrun
          exact h4 ▸ fixInv_emit _ h
        · simp only [Except.ok.injEq, Prod.mk.injEq] at hrun
          obtain ⟨-, h4⟩ := hrun
          exact h4 ▸ fixInv_emit _ h
        · split at hrun
          · cases h4 : getRegister (curTok (adv ts2)).literal with
            | error e => rw [h4] at hrun; simp [Bind.bind, Except.bind] at hrun
            | ok src =>
              rw [h4] at hrun
              simp only [Bind.bind, Except.bind, Except.ok.injEq, Prod.mk.injEq] at hrun
              obtain ⟨-, h5⟩ := hrun
              exact h5 ▸ fixInv_emit _ h
          · simp only [Except.ok.injEq, Prod.mk.injEq] at hrun
            obtain ⟨-, h5⟩ := hrun
            exact h5 ▸ fixInv_addFixup _ (fixInv_emit _ h)
        · simp at hrun

theorem cmpOp_fixInv {ts ts' : List Token} {st st' : CState}
    (hrun : cmpOp ts st = .ok (ts', st')) (h : fixInv st) : fixInv st' := by
  unfold cmpOp at hrun
  cases h1 : expectPeek .IDENT ts with
  | error e => rw [h1] at hrun; simp [Bind.bind, Except.bind] at hrun
  | ok ts1 =>
    rw [h1] at hrun
    simp only [Bind.bind, Except.bind] at hrun
    cases h2 : getRegister (curTok ts1).literal with
    | error e => rw [h2] at hrun; simp [Bind.bind, Except.bind] at hrun
    | ok reg =>
      rw [h2] at hrun
      simp only [Bind.bind, Except.bind] at hrun
      cases h3 : expectPeek .COMMA ts1 with
      | error e => rw [h3] at hrun; simp [Bind.bind, Except.bind] at hrun
      | ok ts2 =>
        rw [h3] at hrun
        simp only [Bind.bind, Except.bind] at hrun
        split at hrun
        · simp only [Except.ok.injEq, Prod.mk.injEq] at hrun
          obtain ⟨-, h4⟩ := hrun
          exact h4 ▸ fixInv_emit _ h
        · simp only [Except.ok.injEq, Prod.mk.injEq] at hrun
          obtain ⟨-, h4⟩ := hrun
          exact h4 ▸ fixInv_emit _ h
        · split at hrun
          · cases h4 : getRegister (curTok (adv ts2)).literal with
            | error e => rw [h4] at hrun; simp [Bind.bind, Except.bind] at hrun
            | ok src =>
              rw [h4] at hrun
              simp only [Bind.bind, Except.bind, Except.ok.injEq, Prod.mk.injEq] at hrun
              obtain ⟨-, h5⟩ := hrun
              exact h5 ▸ fixInv_emit _ h
          · simp only [Except.ok.injEq, Prod.mk.injEq] at hrun
            obtain ⟨-, h5⟩ := hrun
            exact h5 ▸ fixInv_addFixup _ (fixInv_emit _ h)
        · simp at hrun

theorem dataLoop_fixInv : ∀ (ts : List Token) (st : CState) (ts' : List Token)
    (st' : CState), dataLoop ts st = .ok (ts', st') → fixInv st → fixInv st' := by
  intro ts st
  induction ts, st using dataLoop.induct with
  | case1 ts st hcomma ts1 e hexp =>
    intro ts' st' hrun h
    unfold dataLoop at hrun
    rw [dif_pos hcomma] at hrun
    dsimp only at hrun
    split at hrun
    · simp at hrun
    · next ts3 h2 =>
      rw [hexp] at h2
      simp at h2
  | case2 ts st hcomma ts1 ts2 hexp ih =>
    intro ts' st' hrun h
    unfold dataLoop at hrun
    rw [dif_pos hcomma] at hrun
    dsimp only at hrun
    split at hrun
    · next e h2 =>
      rw [hexp] at h2
      simp at h2
    · next ts3 h2 =>
      rw [hexp] at h2
      obtain h3 := Except.ok.inj h2
      subst h3
      exact ih _ _ hrun (fixInv_emit _ h)
  | case3 ts st hcomma =>
    intro ts' st' hrun h
    unfold dataLoop at hrun
    rw [dif_neg hcomma] at hrun
    simp only [Except.ok.injEq, Prod.mk.injEq] at hrun
    obtain ⟨-, h4⟩ := hrun
    exact h4 ▸ h

theorem dataOp_fixInv {ts ts' : List Token} {st st' : CState}
    (hrun : dataOp ts st = .ok (ts', st')) (h : fixInv st) : fixInv st' := by
  unfold dataOp at hrun
  dsimp only at hrun
  split at hrun
  · simp only [Except.ok.injEq, Prod.mk.injEq] at hrun
    obtain ⟨-, h4⟩ := hrun
    exact h4 ▸ fixInv_emit _ h
  · exact dataLoop_fixInv _ _ _ _ hrun (fixInv_emit _ h)

theorem step_fixInv {ts ts' : List Token} {st st' : CState}
    (hrun : step ts st = .ok (ts', st')) (h : fixInv st) : fixInv st' := by
  unfold step at hrun
  dsimp only at hrun
  split at hrun
  · -- LABEL
    simp only [Except.ok.injEq, Prod.mk.injEq] at hrun
    obtain ⟨-, h4⟩ := hrun
    exact h4 ▸ h
  · -- EXIT
    simp only [Except.ok.injEq, Prod.mk.injEq] at hrun
    obtain ⟨-, h4⟩ := hrun
    exact h4 ▸ fixInv_emit _ h
  · -- INC
    exact oneRegOp_fixInv hrun h
  · -- DEC
    exact oneRegOp_fixInv hrun h
  · -- RANDOM
    exact oneRegOp_fixInv hrun h
  · -- RET
    simp only [Except.ok.injEq, Prod.mk.injEq] at hrun
    obtain ⟨-, h4⟩ := hrun
    exact h4 ▸ fixInv_emit _ h
  · -- CALL
    exact callOp_fixInv hrun h
  · -- IS_INTEGER
    exact oneRegOp_fixInv hrun h
  · -- IS_STRING
    exact oneRegOp_fixInv hrun h
  · -- STRING2INT
    exact oneRegOp_fixInv hrun h
  · -- INT2STRING
    exact oneRegOp_fixInv hrun h
  · -- SYSTEM
    exact oneRegOp_fixInv hrun h
  · -- CMP
    exact cmpOp_fixInv hrun h
  · -- CONCAT
    exact threeRegOp_fixInv hrun h
  · -- DB
    exact dataOp_fixInv hrun h
  · -- DATA
    exact dataOp_fixInv hrun h
  · -- GOTO
    exact jumpOp_fixInv hrun h
  · -- TRAP
    exact trapOp_fixInv hrun h
  · -- JMP
    exact jumpOp_fixInv hrun h
  · -- JMPZ
    exact jumpOp_fixInv hrun h
  · -- JMPNZ
    exact jumpOp_fixInv hrun h
  · -- MEMCPY
    exact threeRegOp_fixInv hrun h
  · -- NOP
    simp only [Except.ok.injEq, Prod.mk.injEq] at hrun
    obtain ⟨-, h4⟩ := hrun
    exact h4 ▸ fixInv_emit _ h
  · -- PEEK
    exact twoRegMemOp_fixInv hrun h
  · -- POKE
    exact twoRegMemOp_fixInv hrun h
  · -- PUSH
    exact oneRegOp_fixInv hrun h
  · -- POP
    exact oneRegOp_fixInv hrun h
  · -- STORE
    exact storeOp_fixInv hrun h
  · -- PRINT_INT
    exact oneRegOp_fixInv hrun h
  · -- PRINT_STR
    exact oneRegOp_fixInv hrun h
  · -- ADD
    exact mathOperation_fixInv hrun h
  · -- XOR
    exact mathOperation_fixInv hrun h
  · -- SUB
    exact mathOperation_fixInv hrun h
  · -- MUL
    exact mathOperation_fixInv hrun h
  · -- DIV
    exact mathOperation_fixInv hrun h
  · -- AND
    exact mathOperation_fixInv hrun h
  · -- OR
    exact mathOperation_fixInv hrun h
  · -- default
    simp only [Except.ok.injEq, Prod.mk.injEq] at hrun
    obtain ⟨-, h4⟩ := hrun
    exact h4 ▸ fixInv_warn h

theorem runLoop_fixInv : ∀ (fuel : Nat) (ts : List Token) (st st' : CState),
    runLoop fuel ts st = .ok st' → fixInv st → fixInv st' := by
  intro fuel
  induction fuel with
  | zero =>
    intro ts st st' hrun h
    simp only [runLoop] at hrun
    exact (Except.ok.inj hrun) ▸ h
  | succ n ih =>
    intro ts st st' hrun h
    rw [runLoop] at hrun
    split at hrun
    · exact (Except.ok.inj hrun) ▸ h
    · cases hs : step ts st with
      | error e => rw [hs] at hrun; simp at hrun
      | ok p =>
        rw [hs] at hrun
        obtain ⟨ts1, st1⟩ := p
        exact ih _ _ _ hrun (step_fixInv hs h)

theorem fixupPass_length (labels : List (String × Nat)) :
    ∀ (fixups : List (Nat × String)) (bc : List Nat) (ws : List Warning),
      (fixupPass labels fixups bc ws).1.length = bc.length := by
  intro fixups
  induction fixups with
  | nil => intro bc ws; rfl
  | cons e es ih =>
    intro bc ws
    rw [fixupPass_step, ih]
    simp [applyFixup]

theorem fixupPass_frame (labels : List (String × Nat)) :
    ∀ (fixups : List (Nat × String)) (bc : List Nat) (ws : List Warning) (i : Nat),
      (∀ e ∈ fixups, i ≠ e.1 ∧ i ≠ e.1 + 1) →
      (fixupPass labels fixups bc ws).1[i]? = bc[i]? := by
  intro fixups
  induction fixups with
  | nil => intro bc ws i h; rfl
  | cons e es ih =>
    intro bc ws i h
    rw [fixupPass_step]
    rw [ih _ _ _ (fun e' he' => h e' (List.mem_cons_of_mem _ he'))]
    obtain ⟨h1, h2⟩ := h e (List.mem_cons_self _ _)
    simp only [applyFixup]
    rw [List.getElem?_set_ne (fun hx => h2 hx.symm),
      List.getElem?_set_ne (fun hx => h1 hx.symm)]

/-- C10: the fixup pass only overwrites bytes in place.  First
conjunct: at the end of the scanning loop every recorded fixup offset
satisfies offset + 1 < buffer length, since the two placeholder bytes
were appended at registration and the buffer only grows.  Second
conjunct: the pass never changes the buffer's length.  Third conjunct:
every byte at a position that is not one of the two placeholder bytes
of some fixup entry is identical before and after the pass. -/
theorem c10_fixup_pass_frame :
    (∀ (ts : List Token) (st : CState),
      runLoop (ts.length + 1) ts initState = .ok st →
      ∀ e ∈ st.fixups, e.1 + 1 < st.bytecode.length) ∧
    (∀ (labels : List (String × Nat)) (fixups : List (Nat × String))
        (bc : List Nat) (ws : List Warning),
      (fixupPass labels fixups bc ws).1.length = bc.length) ∧
    (∀ (labels : List (String × Nat)) (fixups : List (Nat × String))
        (bc : List Nat) (ws : List Warning) (i : Nat),
      (∀ e ∈ fixups, i ≠ e.1 ∧ i ≠ e.1 + 1) →
      (fixupPass labels fixups bc ws).1[i]? = bc[i]?) := by
  refine ⟨?_, fixupPass_length, fixupPass_frame⟩
  intro ts st hrun
  exact runLoop_fixInv _ _ _ _ hrun (fun e he => absurd he (List.not_mem_nil e))

/-- C10 witness: the three conjuncts applied to the compiled program
`jmpnz loop` / `:loop` / `ret`, whose single fixup entry sits at
offset 1 of the 4-byte buffer. -/
theorem c10_fixup_pass_frame_witness :
    ((1, "loop") : Nat × String).1 + 1 <
      (⟨[opcode.JUMP_NZ, 0, 0, opcode.STACK_RET], [("loop", 3)], [(1, "loop")], []⟩ :
        CState).bytecode.length ∧
    (fixupPass [("loop", 3)] [(1, "loop")] [opcode.JUMP_NZ, 0, 0, opcode.STACK_RET] []).1.length =
      ([opcode.JUMP_NZ, 0, 0, opcode.STACK_RET] : List Nat).length ∧
    (fixupPass [("loop", 3)] [(1, "loop")] [opcode.JUMP_NZ, 0, 0, opcode.STACK_RET] []).1[0]? =
      ([opcode.JUMP_NZ, 0, 0, opcode.STACK_RET] : List Nat)[0]? :=
  ⟨c10_fixup_pass_frame.1
      [⟨.JMPNZ, "jmpnz"⟩, ⟨.IDENT, "loop"⟩, ⟨.LABEL, ":loop"⟩, ⟨.RET, "ret"⟩]
      ⟨[opcode.JUMP_NZ, 0, 0, opcode.STACK_RET], [("loop", 3)], [(1, "loop")], []⟩
      (by decide) (1, "loop") (by decide),
    c10_fixup_pass_frame.2.1 [("loop", 3)] [(1, "loop")]
      [opcode.JUMP_NZ, 0, 0, opcode.STACK_RET] [],
    c10_fixup_pass_frame.2.2 [("loop", 3)] [(1, "loop")]
      [opcode.JUMP_NZ, 0, 0, opcode.STACK_RET] [] 0 (by decide)⟩

end GoVM
